import Mathlib

/-!
Verification of the NanoClaw agent runner
(src/container/agent-runner/src/index.ts) against its specification.

The TypeScript source is shallowly embedded: JavaScript strings are `String`
(or `List Char` where character-level reasoning is needed), JSON values are the
`Json` inductive, the filesystem inbox is an association list of file names to
contents, and the asynchronous behaviour of the host and the agent engine
(which the spec treats as external collaborators) is supplied by explicit
oracle fields of an `Env` / `TurnScript` structure: each turn's engine outcome,
whether the host wrote the close sentinel while the turn was in flight, and
what the post-turn mailbox wait yielded.
-/

namespace NanoClaw

/-- The characters of a string literal. -/
def strData (s : String) : List Char := s.data

/-! ## JSON string escaping (the behaviour of JSON.stringify on strings)

`JSON.stringify` escapes the double quote, the backslash, and every control
character below U+0020 (with two-character escapes for backspace, tab, line
feed, form feed and carriage return, and a lowercase hexadecimal u-escape for
the rest). -/

/-- Lowercase hexadecimal digit for a value below 16. -/
def hexDigitChar (n : Nat) : Char :=
  if n < 10 then Char.ofNat (48 + n) else Char.ofNat (87 + n)

/-- How JSON.stringify escapes one character inside a string literal. -/
def escChar (c : Char) : List Char :=
  if c = '"' then ['\\', '"']
  else if c = '\\' then ['\\', '\\']
  else if c = '\x08' then ['\\', 'b']
  else if c = '\x09' then ['\\', 't']
  else if c = '\x0a' then ['\\', 'n']
  else if c = '\x0c' then ['\\', 'f']
  else if c = '\x0d' then ['\\', 'r']
  else if c.toNat < 32 then
    ['\\', 'u', '0', '0', hexDigitChar (c.toNat / 16), hexDigitChar (c.toNat % 16)]
  else [c]

/-- JSON.stringify escaping of a whole string body (without the quotes). -/
def encStr (s : List Char) : List Char := (s.map escChar).flatten

/-- A JSON string literal: quote, escaped body, quote. -/
def quoteStr (s : List Char) : List Char := '"' :: encStr s ++ ['"']

/-- Value of one hexadecimal digit character. -/
def hexVal (c : Char) : Option Nat :=
  if '0' ≤ c ∧ c ≤ '9' then some (c.toNat - 48)
  else if 'a' ≤ c ∧ c ≤ 'f' then some (c.toNat - 87)
  else if 'A' ≤ c ∧ c ≤ 'F' then some (c.toNat - 55)
  else none

/-- JSON parsing of a two-character escape (after the backslash). -/
def unescChar (c : Char) : Option Char :=
  if c = '"' then some '"'
  else if c = '\\' then some '\\'
  else if c = '/' then some '/'
  else if c = 'b' then some '\x08'
  else if c = 't' then some '\x09'
  else if c = 'n' then some '\x0a'
  else if c = 'f' then some '\x0c'
  else if c = 'r' then some '\x0d'
  else none

/-- Parse the body of a JSON string up to and including the closing quote,
returning the decoded characters and the remaining input. -/
def parseStrAux : List Char → Option (List Char × List Char)
  | [] => none
  | c :: cs =>
    if c = '"' then some ([], cs)
    else if c = '\\' then
      match cs with
      | [] => none
      | e :: cs2 =>
        if e = 'u' then
          match cs2 with
          | h1 :: h2 :: h3 :: h4 :: cs3 =>
            match hexVal h1, hexVal h2, hexVal h3, hexVal h4 with
            | some a, some b, some c4, some d =>
              match parseStrAux cs3 with
              | some (s, r) => some (Char.ofNat (((a * 16 + b) * 16 + c4) * 16 + d) :: s, r)
              | none => none
            | _, _, _, _ => none
          | _ => none
        else
          match unescChar e with
          | some c2 =>
            match parseStrAux cs2 with
            | some (s, r) => some (c2 :: s, r)
            | none => none
          | none => none
    else
      match parseStrAux cs with
      | some (s, r) => some (c :: s, r)
      | none => none

/-- Strip an expected literal from the front of the input, returning the rest. -/
def stripPre : List Char → List Char → Option (List Char)
  | [], cs => some cs
  | _ :: _, [] => none
  | p :: ps, c :: cs => if c = p then stripPre ps cs else none

/-! ## JSON values

Used for the payloads the runner treats opaquely: the engine's
`structured_output` fallback and engine-level error objects, both of which the
runner passes through `JSON.stringify`. -/

/-- A JSON value. -/
inductive Json where
  | null
  | bool (b : Bool)
  | num (n : Int)
  | str (s : String)
  | arr (items : List Json)
  | obj (entries : List (String × Json))

mutual

/-- `JSON.stringify` of a JSON value. -/
def Json.serialize : Json → List Char
  | .null => strData "null"
  | .bool true => strData "true"
  | .bool false => strData "false"
  | .num n => (toString n).data
  | .str s => quoteStr s.data
  | .arr items => '[' :: (Json.serializeArr items ++ [']'])
  | .obj entries => '\x7b' :: (Json.serializeObj entries ++ ['\x7d'])

/-- Comma-separated serialization of array items. -/
def Json.serializeArr : List Json → List Char
  | [] => []
  | [j] => Json.serialize j
  | j :: rest => Json.serialize j ++ (',' :: Json.serializeArr rest)

/-- Comma-separated serialization of object entries. -/
def Json.serializeObj : List (String × Json) → List Char
  | [] => []
  | [(k, v)] => quoteStr k.data ++ (':' :: Json.serialize v)
  | (k, v) :: rest =>
    quoteStr k.data ++ (':' :: Json.serialize v) ++ (',' :: Json.serializeObj rest)

end

/-- JavaScript truthiness of a JSON value (`undefined` is represented by
`Option.none` at use sites, never by a `Json` constructor). -/
def Json.truthy : Json → Bool
  | .null => false
  | .bool b => b
  | .num n => n != 0
  | .str s => s != ""
  | .arr _ => true
  | .obj _ => true

/-! ## ContainerOutput and the stdout framing (OutputEmitter)

`interface ContainerOutput` from index.ts, and `writeOutput`, which prints the
start marker, one line of JSON, and the end marker. -/

/-- The `status` field of a ContainerOutput. -/
inductive OStatus where
  | success
  | error
deriving DecidableEq

/-- `interface ContainerOutput`: `status`, `result` (string or null), optional
`newSessionId`, optional `error`. An absent optional field is `none`. -/
structure ContainerOutput where
  status : OStatus
  result : Option String
  newSessionId : Option String
  error : Option String
deriving DecidableEq

/-- The characters of the JSON `status` field value. -/
def statusChars : OStatus → List Char
  | .success => strData "success"
  | .error => strData "error"

/-- Serialization of the `result` field: `null` or a JSON string. -/
def encResult : Option String → List Char
  | none => strData "null"
  | some s => '"' :: (encStr s.data ++ ['"'])

/-- Serialization of an optional string-valued field; `key` includes the
leading comma, the quoted field name, the colon and the opening quote.
`JSON.stringify` omits absent (undefined) fields. -/
def encOptField (key : List Char) : Option String → List Char
  | none => []
  | some s => key ++ (encStr s.data ++ ['"'])

/-- `JSON.stringify` of a ContainerOutput, with fields in the insertion order
the source always uses: status, result, newSessionId, error. -/
def encodeOutput (o : ContainerOutput) : List Char :=
  strData "\x7b\"status\":\"" ++
    (encStr (statusChars o.status) ++ ('"' ::
      (strData ",\"result\":" ++
        (encResult o.result ++
          (encOptField (strData ",\"newSessionId\":\"") o.newSessionId ++
            (encOptField (strData ",\"error\":\"") o.error ++ strData "\x7d"))))))

/-- Decode the `status` token. -/
def decodeStatusTok (s : List Char) : Option OStatus :=
  if s = strData "success" then some .success
  else if s = strData "error" then some .error
  else none

/-- Parse the `result` value: a JSON string or the literal `null`. -/
def parseResultVal : List Char → Option (Option String × List Char)
  | [] => none
  | c :: cs =>
    if c = '"' then
      match parseStrAux cs with
      | some (s, r) => some (some (String.mk s), r)
      | none => none
    else
      match stripPre (strData "null") (c :: cs) with
      | some r => some (none, r)
      | none => none

/-- Parse an optional string-valued field introduced by the literal `key`
(ending in the opening quote); absence of the key yields `none` and leaves the
input untouched. -/
def parseOptStrField (key : List Char) (cs : List Char) : Option (Option String × List Char) :=
  match stripPre key cs with
  | some cs2 =>
    match parseStrAux cs2 with
    | some (s, r) => some (some (String.mk s), r)
    | none => none
  | none => some (none, cs)

/-- JSON-decode one ContainerOutput line. -/
def decodeOutput (cs : List Char) : Option ContainerOutput :=
  match stripPre (strData "\x7b\"status\":\"") cs with
  | none => none
  | some cs1 =>
    match parseStrAux cs1 with
    | none => none
    | some (st, cs2) =>
      match decodeStatusTok st with
      | none => none
      | some status =>
        match stripPre (strData ",\"result\":") cs2 with
        | none => none
        | some cs3 =>
          match parseResultVal cs3 with
          | none => none
          | some (result, cs4) =>
            match parseOptStrField (strData ",\"newSessionId\":\"") cs4 with
            | none => none
            | some (nsid, cs5) =>
              match parseOptStrField (strData ",\"error\":\"") cs5 with
              | none => none
              | some (err, cs6) =>
                if cs6 = strData "\x7d" then
                  some { status := status, result := result,
                         newSessionId := nsid, error := err }
                else none

/-- `OUTPUT_START_MARKER` from index.ts. -/
def outputStartMarker : List Char := strData "---NANOCLAW_OUTPUT_START---"

/-- `OUTPUT_END_MARKER` from index.ts. -/
def outputEndMarker : List Char := strData "---NANOCLAW_OUTPUT_END---"

/-- `writeOutput` from index.ts: three stdout lines — start marker, the JSON
serialization of the envelope, end marker. -/
def writeOutput (o : ContainerOutput) : List (List Char) :=
  [outputStartMarker, encodeOutput o, outputEndMarker]

/-- The host-side re-parse: scan to the start marker, take the enclosed lines
up to the end marker, JSON-decode the single enclosed line. -/
def reparseFramed (lines : List (List Char)) : Option ContainerOutput :=
  match lines.dropWhile (fun l => l != outputStartMarker) with
  | [] => none
  | _ :: rest =>
    match rest.takeWhile (fun l => l != outputEndMarker) with
    | [line] => decodeOutput line
    | _ => none

/-! ## Mailbox (IPC inbox directory)

`drainIpcInput`, `shouldClose` and `waitForIpcMessage` from index.ts. The
inbox directory is an association list from file names (UTF-16 strings,
modelled as `List Char`) to file contents classified the way the code's
checks classify them. -/

/-- Contents of one inbox file as the checks in `drainIpcInput` classify them:
`message t` is a file whose JSON is an object with `type:"message"` and a
string `text` field `t`; `other` parses as JSON but fails that check;
`malformed` makes `JSON.parse` throw. -/
inductive FileContent where
  | message (text : String)
  | other
  | malformed
deriving DecidableEq

/-- The inbox directory: file names paired with contents. -/
abbrev InboxDir := List (List Char × FileContent)

/-- Whether a file name matches the message naming convention
(`.endsWith('.json')`). -/
def isJsonName (n : List Char) : Bool := (strData ".json").isSuffixOf n

/-- Read a file by name (readFileSync). -/
def lookupFile (fs : InboxDir) (n : List Char) : Option FileContent :=
  (fs.find? (fun f => f.1 == n)).map (fun f => f.2)

/-- Remove a file by name (unlinkSync). -/
def eraseFile (fs : InboxDir) (n : List Char) : InboxDir :=
  fs.filter (fun f => decide (¬ f.1 = n))

/-- The text payload a name contributes to the drain result, for stating the
drain theorem. -/
def textOfName (fs : InboxDir) (n : List Char) : String :=
  match lookupFile fs n with
  | some (.message t) => t
  | _ => ""

/-- Whether a file content is a message with JS-truthy (non-empty) text. -/
def isNonEmptyMsg : FileContent → Bool
  | .message t => t != ""
  | _ => false

/-- The per-file loop of `drainIpcInput`: read, delete, and keep the text when
the content is `type:"message"` with truthy `text` (empty texts are dropped by
the `data.text` truthiness check); `other` and `malformed` files are deleted
and skipped. -/
def drainGo : List (List Char) → InboxDir → List String × InboxDir
  | [], fs => ([], fs)
  | n :: ns, fs =>
    match lookupFile fs n with
    | none => drainGo ns fs
    | some c =>
      let rest := drainGo ns (eraseFile fs n)
      match c with
      | .message t => if t != "" then (t :: rest.1, rest.2) else rest
      | .other => rest
      | .malformed => rest

/-- The candidate list of `drainIpcInput`: names filtered to `.json` and
sorted (`Array.sort` default string order). -/
def sortedJsonNames (fs : InboxDir) : List (List Char) :=
  ((fs.map Prod.fst).filter isJsonName).insertionSort (· ≤ ·)

/-- `drainIpcInput` from index.ts: returns the extracted texts in name-sorted
order and the directory contents left behind. -/
def drainIpcInput (fs : InboxDir) : List String × InboxDir :=
  drainGo (sortedJsonNames fs) fs

/-- The IPC input directory state: whether the `_close` sentinel exists, and
the message files. -/
structure IpcState where
  sentinel : Bool
  files : InboxDir
deriving DecidableEq

/-- `shouldClose` from index.ts: if the sentinel exists, delete it and report
true. -/
def shouldClose (st : IpcState) : Bool × IpcState :=
  if st.sentinel then (true, { st with sentinel := false }) else (false, st)

/-- `waitForIpcMessage` from index.ts: poll — close sentinel first, then drain;
join drained texts with newlines. `fuel` bounds the number of polls we model
(the real loop re-polls every 500 ms indefinitely; host writes between polls
are outside this function). Result `none` means the fuel ran out with the
process still waiting; `some none` is the close signal; `some (some m)` is the
next message text. -/
def waitForIpcMessage : Nat → IpcState → Option (Option String) × IpcState
  | 0, st => (none, st)
  | fuel + 1, st =>
    let cl := shouldClose st
    if cl.1 then (some none, cl.2)
    else
      let dr := drainIpcInput cl.2.files
      if dr.1.isEmpty then waitForIpcMessage fuel { cl.2 with files := dr.2 }
      else (some (some (String.intercalate "\n" dr.1)), { cl.2 with files := dr.2 })

/-! ## Transcript archiving (TranscriptArchiver) -/

/-- The role of a transcript entry (`ParsedMessage` in index.ts). -/
inductive ParsedRole where
  | user
  | assistant
deriving DecidableEq

/-- `interface ParsedMessage`: one conversation turn for archiving. -/
structure ParsedMessage where
  role : ParsedRole
  content : String
deriving DecidableEq

/-- Lowercase-alphanumeric test for the `[^a-z0-9]` character class applied
after lowercasing. -/
def isLowerAlnum (c : Char) : Bool :=
  ('a' ≤ c && c ≤ 'z') || ('0' ≤ c && c ≤ '9')

/-- `replace(/[^a-z0-9]+/g, '-')`: collapse each maximal run of
non-alphanumeric characters to a single dash. -/
def collapseRuns : List Char → List Char
  | [] => []
  | c :: rest =>
    if isLowerAlnum c then c :: collapseRuns rest
    else '-' :: collapseRuns (rest.dropWhile (fun d => !(isLowerAlnum d)))
termination_by l => l.length
decreasing_by
  · simp only [List.length_cons]; omega
  · exact Nat.lt_succ_of_le (List.Sublist.length_le (List.dropWhile_sublist _))

/-- `replace(/^-+|-+$/g, '')`: trim leading and trailing dashes. -/
def trimDashes (l : List Char) : List Char :=
  ((l.dropWhile (fun c => c == '-')).reverse.dropWhile (fun c => c == '-')).reverse

/-- `sanitizeFilename` from index.ts: lowercase, collapse non-alphanumeric
runs to dashes, trim dashes, cap at 50 characters. -/
def sanitizeFilename (summary : String) : String :=
  String.mk ((trimDashes (collapseRuns (summary.data.map Char.toLower))).take 50)

/-- Two-digit zero-padding (`padStart(2, '0')` on hours/minutes). -/
def pad2 (n : Nat) : String :=
  if n < 10 then "0" ++ toString n else toString n

/-- `generateFallbackName` from index.ts, with the wall-clock hour and minute
supplied explicitly. -/
def generateFallbackName (hh mm : Nat) : String :=
  "conversation-" ++ pad2 hh ++ pad2 mm

/-- JavaScript `x || 'fallback'` on an optional string: empty or absent
strings are falsy. -/
def jsOrElse (o : Option String) (fallback : String) : String :=
  match o with
  | some s => if s != "" then s else fallback
  | none => fallback

/-- The per-message truncation: content longer than 2000 characters is cut and
suffixed with an ellipsis marker. -/
def truncContent (s : String) : String :=
  if s.data.length > 2000 then String.mk (s.data.take 2000) ++ "..." else s

/-- One transcript paragraph: bolded sender label derived from the role, then
the (possibly truncated) content. -/
def transcriptLine (assistantName : Option String) (m : ParsedMessage) : String :=
  let sender := match m.role with
    | .user => "User"
    | .assistant => jsOrElse assistantName "Assistant"
  "**" ++ sender ++ "**: " ++ truncContent m.content

/-- `formatTranscriptMarkdown` from index.ts; `nowFormatted` stands for the
formatted current date-time string. -/
def formatTranscriptMarkdown (messages : List ParsedMessage) (title : Option String)
    (assistantName : Option String) (nowFormatted : String) : String :=
  String.intercalate "\n"
    (["# " ++ jsOrElse title "Conversation", "",
      "Archived: " ++ nowFormatted, "", "---", ""] ++
     (messages.map (fun m => [transcriptLine assistantName m, ""])).flatten)

/-- The wall clock supplied to the archiver: the ISO date prefix, the hour and
minute for the fallback name, and the human-formatted timestamp. -/
structure Clock where
  date : String
  hh : Nat
  mm : Nat
  nowFormatted : String
deriving DecidableEq

/-- `archiveConversation` from index.ts: a no-op on an empty message list;
otherwise renders the transcript and appends one file
`<date>-<name>.md` to the archive directory. I/O failures are swallowed in the
source and not modelled. -/
def archiveConversation (messages : List ParsedMessage) (assistantName : Option String)
    (summary : Option String) (clock : Clock)
    (archive : List (String × String)) : List (String × String) :=
  if messages.isEmpty then archive
  else
    let name := match summary with
      | some s => if s != "" then sanitizeFilename s else generateFallbackName clock.hh clock.mm
      | none => generateFallbackName clock.hh clock.mm
    archive ++ [(clock.date ++ "-" ++ name ++ ".md",
      formatTranscriptMarkdown messages summary assistantName clock.nowFormatted)]

/-! ## Reply extraction (extractResultText) -/

/-- One entry of the engine response's `parts` array: its `type` tag and its
`text` field (absent text is `none`). -/
structure EnginePart where
  ptype : String
  ptext : Option String

/-- The engine response as `extractResultText` inspects it:
`info.structured_output` (absent is `none`) and the `parts` array (`none` when
absent or not an array). -/
structure EngineResult where
  structuredOut : Option Json
  parts : Option (List EnginePart)

/-- JavaScript string concatenation of a list (`join('')`). -/
def joinAll (l : List String) : String :=
  String.mk ((l.map String.data).flatten)

/-- The `text`-typed fragments' texts, in order (the spec's notion of the
text content of a response). -/
def textFragments (ps : List EnginePart) : List String :=
  (ps.filter (fun p => p.ptype == "text")).filterMap (fun p => p.ptext)

/-- The fallback branch of `extractResultText`:
`if (info?.structured_output) return JSON.stringify(info.structured_output)`,
else null — note the JS truthiness test on the field's value. -/
def fallbackText (r : EngineResult) : Option String :=
  match r.structuredOut with
  | some j => if j.truthy then some (String.mk (Json.serialize j)) else none
  | none => none

/-- `extractResultText` from index.ts: keep `text`-typed parts, drop falsy
texts (`filter(Boolean)` drops empty strings), join; if none survive, fall
back to `JSON.stringify(info.structured_output)` when that field is truthy;
otherwise null. -/
def extractResultText (r : EngineResult) : Option String :=
  match r.parts with
  | some ps =>
    let textParts := (textFragments ps).filter (fun t => t != "")
    if textParts.length > 0 then some (joinAll textParts) else fallbackText r
  | none => fallbackText r

/-! ## The main program (SessionOrchestrator)

`main` and `runQuery` from index.ts, as a function of an environment that
scripts the external world: the stdin parse result, the engine's behaviour at
each call site, the startup inbox state and per-turn host actions. Cooperative
concurrency during a turn is summarized by its observable outcome: whether the
poller saw a close sentinel while the foreground call was in flight
(`closeDuringQuery`). Filesystem writes outside the claims
(opencode.json, the secrets temp-file deletion) are elided. -/

/-- `interface ContainerInput`, with every field optional the way a parsed but
unvalidated JSON document leaves them (`JSON.parse` performs no field checks);
boolean fields record their JS truthiness. `secrets` only feeds the engine
configuration and is elided. -/
structure ContainerInputM where
  prompt : Option String
  sessionId : Option String
  groupFolder : Option String
  chatJid : Option String
  isMain : Bool
  isScheduledTask : Bool
  assistantName : Option String
deriving DecidableEq

/-- Outcome of one foreground `client.session.prompt` call: a structured reply
(`result.data`), an engine-level error (`result.error`), neither field, or a
thrown exception. -/
inductive PromptOutcome where
  | replyData (r : EngineResult)
  | replyError (e : Json)
  | replyNeither
  | threw (msg : String)

/-- Oracle for one iteration of the query loop: the foreground call's outcome,
whether the host wrote the close sentinel while the call was in flight (the
background poller then aborts the turn), and what `waitForIpcMessage` yielded
afterwards (`none` = close sentinel; irrelevant when the turn was aborted). -/
structure TurnScript where
  outcome : PromptOutcome
  closeDuringQuery : Bool
  nextMessage : Option String

/-- The envelopes `runQuery` emits for one foreground outcome. -/
def runQueryOutputs (sid : String) : PromptOutcome → List ContainerOutput
  | .replyData r => [⟨.success, extractResultText r, some sid, none⟩]
  | .replyError e => [⟨.error, none, some sid, some (String.mk (Json.serialize e))⟩]
  | .replyNeither => []
  | .threw msg => [⟨.error, none, some sid, some msg⟩]

/-- The per-turn session-update envelope (`status:'success', result:null`). -/
def heartbeatEnvelope (sid : String) : ContainerOutput :=
  ⟨.success, none, some sid, none⟩

/-- The query loop of `main`: push the user prompt onto the conversation
record, run the query, break if closed during the query, else emit the
heartbeat and wait for the next message (break on close). Returns the record,
the emitted envelopes, and whether the loop finished (false = the script ran
out with the process still waiting in `waitForIpcMessage`). -/
def runLoop (sid : String) : List TurnScript → String → List ParsedMessage →
    List ContainerOutput → List ParsedMessage × List ContainerOutput × Bool
  | [], _, record, outputs => (record, outputs, false)
  | t :: rest, prompt, record, outputs =>
    let record2 := record ++ [⟨.user, prompt⟩]
    let outputs2 := outputs ++ runQueryOutputs sid t.outcome
    if t.closeDuringQuery then (record2, outputs2, true)
    else
      let outputs3 := outputs2 ++ [heartbeatEnvelope sid]
      match t.nextMessage with
      | none => (record2, outputs3, true)
      | some m => runLoop sid rest m record2 outputs3

/-- The prefix prepended to scheduled-task prompts. -/
def scheduledTaskPreamble : String :=
  "[SCHEDULED TASK - The following message was sent automatically and is not coming directly from the user or group.]\n\n"

/-- JavaScript string coercion of a possibly-undefined string (an absent
`prompt` flows into template literals and `+` as the string "undefined"). -/
def jsOptString (o : Option String) : String :=
  match o with
  | some s => s
  | none => "undefined"

/-- The initial prompt of the first turn: the input prompt (with the
scheduled-task preamble when flagged), plus any pending inbox messages drained
at startup, joined with newlines. -/
def initialPrompt (input : ContainerInputM) (files : InboxDir) : String :=
  let base := jsOptString input.prompt
  let p0 := if input.isScheduledTask then scheduledTaskPreamble ++ base else base
  let pending := (drainIpcInput files).1
  if pending.isEmpty then p0 else p0 ++ "\n" ++ String.intercalate "\n" pending

/-- The external-world script for one whole run. `stdin = none` means
`JSON.parse` threw (with message `parseErrMsg`); the `Ok` booleans script the
engine/server calls made before the turn loop; `staleSentinel` and
`startupFiles` are the inbox state at process start. -/
structure Env where
  stdin : Option ContainerInputM
  parseErrMsg : String
  serverStartOk : Bool
  resumeOk : Bool
  createOk : Bool
  newSessionId : String
  hasGlobalContext : Bool
  contextInjectOk : Bool
  staleSentinel : Bool
  startupFiles : InboxDir
  turns : List TurnScript
  clock : Clock

/-- The observable outcome of one run. `exitCode = none` means the process is
still running (blocked waiting); `teardown` records whether the
archive-and-release epilogue was reached; `sentinelAfterStartup` is the close
sentinel's existence right after the startup cleanup (`none` when startup was
never reached). -/
structure RunResult where
  exitCode : Option Nat
  outputs : List ContainerOutput
  record : List ParsedMessage
  archive : List (String × String)
  teardown : Bool
  sessionStarted : Bool
  sentinelAfterStartup : Option Bool

/-- The startup cleanup of the IPC directory: `mkdirSync` then an unconditional
best-effort `unlinkSync` of the close sentinel — the sentinel is deleted
without consulting `shouldClose`. -/
def startupIpcCleanup (st : IpcState) : IpcState :=
  { st with sentinel := false }

/-- A crash before the turn loop: an engine/server call outside any try/catch
rejected, so the process dies from an unhandled rejection — exit code 1, no
envelope, no teardown. -/
def crashResult (sessionStarted : Bool) : RunResult :=
  { exitCode := some 1, outputs := [], record := [], archive := [],
    teardown := false, sessionStarted := sessionStarted,
    sentinelAfterStartup := some false }

/-- The turn loop and its epilogue: run the query loop; when it finishes
(closed), archive the conversation and release the server (exit 0); when the
script runs out, the process is still blocked waiting. -/
def loopOutcome (env : Env) (input : ContainerInputM) (ipc1 : IpcState)
    (sid : String) : RunResult :=
  match runLoop sid env.turns (initialPrompt input ipc1.files) [] [] with
  | (record, outputs, true) =>
    { exitCode := some 0, outputs := outputs, record := record,
      archive := archiveConversation record input.assistantName none env.clock [],
      teardown := true, sessionStarted := true,
      sentinelAfterStartup := some ipc1.sentinel }
  | (record, outputs, false) =>
    { exitCode := none, outputs := outputs, record := record, archive := [],
      teardown := false, sessionStarted := true,
      sentinelAfterStartup := some ipc1.sentinel }

/-- The continuation of `main` after a session handle is obtained: inject
global context when present (an uncaught rejection on failure), then run the
turn loop. -/
def mainRunWithSession (env : Env) (input : ContainerInputM) (ipc1 : IpcState)
    (sid : String) : RunResult :=
  if env.hasGlobalContext && !env.contextInjectOk then crashResult true
  else loopOutcome env input ipc1 sid

/-- `main` from index.ts. Parse stdin (on failure: one error envelope without
a session id and `process.exit(1)`); clean up the stale sentinel; start the
embedded server; resume the hinted session or create a new one (an engine
failure here is an uncaught rejection); then inject context, build the initial
prompt and run the query loop. -/
def mainRun (env : Env) : RunResult :=
  match env.stdin with
  | none =>
    { exitCode := some 1,
      outputs := [⟨.error, none, none, some ("Failed to parse input: " ++ env.parseErrMsg)⟩],
      record := [], archive := [], teardown := false, sessionStarted := false,
      sentinelAfterStartup := none }
  | some input =>
    let ipc1 := startupIpcCleanup ⟨env.staleSentinel, env.startupFiles⟩
    if !env.serverStartOk then crashResult false
    else
      let resumed : Option String :=
        match input.sessionId with
        | some sid => if env.resumeOk then some sid else none
        | none => none
      match resumed with
      | none =>
        if !env.createOk then crashResult false
        else mainRunWithSession env input ipc1 env.newSessionId
      | some sid => mainRunWithSession env input ipc1 sid

/-- The pre-loop crash condition of a run (used to state the exit-code
dichotomy): the embedded server failed to start, a needed session creation
failed, or the context-injection prompt failed — each is an `await` outside
any try/catch in `main`. -/
def setupCrashes (env : Env) : Bool :=
  match env.stdin with
  | none => false
  | some input =>
    !env.serverStartOk ||
    ((input.sessionId.isNone || !env.resumeOk) && !env.createOk) ||
    (env.hasGlobalContext && !env.contextInjectOk)

/-! ## Concrete instances for counterexamples and witnesses -/

/-- A well-formed task input: `{prompt:"hello", groupFolder:"g1", ...}`. -/
def inputHello : ContainerInputM :=
  ⟨some "hello", none, some "g1", some "jid1", false, false, none⟩

/-- A stdin document that parses but has no fields at all (`{}`). -/
def emptyInput : ContainerInputM :=
  ⟨none, none, none, none, false, false, none⟩

/-- A fixed wall clock for concrete runs. -/
def clock0 : Clock := ⟨"2026-02-03", 9, 5, "Feb 3, 9:05 AM"⟩

/-- An engine reply whose parts hold one text fragment "hi". -/
def replyHi : EngineResult := ⟨none, some [⟨"text", some "hi"⟩]⟩

/-- A single successful turn replying "hi", then a close from the mailbox. -/
def turnHi : TurnScript := ⟨.replyData replyHi, false, none⟩

/-- A run with one successful turn: parse ok, fresh session `s1`, one reply,
then close. -/
def envC1 : Env :=
  ⟨some inputHello, "", true, true, true, "s1", false, true, false, [], [turnHi], clock0⟩

/-- A run whose stdin was `{}`: no required field present, one turn in which
the engine call throws, then close. -/
def envC2 : Env :=
  ⟨some emptyInput, "", true, true, true, "s2", false, true, false, [],
    [⟨.threw "Cannot read properties of undefined", false, none⟩], clock0⟩

/-- A run in which session creation fails (parse succeeded). -/
def envC3 : Env :=
  ⟨some inputHello, "", true, true, false, "s3", false, true, false, [], [], clock0⟩

/-- A run closed during its first query (zero completed turns). -/
def envC7 : Env :=
  ⟨some inputHello, "", true, true, true, "s7", false, true, false, [],
    [⟨.threw "aborted", true, none⟩], clock0⟩

/-- The successful run `envC1` but with a stale close sentinel on disk at
startup. -/
def envC10 : Env := { envC1 with staleSentinel := true }

/-- A run whose stdin could not be parsed. -/
def envPF : Env :=
  ⟨none, "Unexpected end of JSON input", true, true, true, "s0", false, true, false,
    [], [], clock0⟩

/-- An inbox with two well-formed message files, listed out of name order. -/
def drainC4wFs : InboxDir :=
  [(strData "b.json", FileContent.message "two"), (strData "a.json", FileContent.message "one")]

/-- An engine response with one empty text fragment and a truthy structured
fallback. -/
def c9cexResult : EngineResult := ⟨some (Json.bool true), some [⟨"text", some ""⟩]⟩

/-- An engine response with no text fragments and a present but falsy
structured fallback. -/
def c9cexResult2 : EngineResult := ⟨some (Json.bool false), some []⟩

/-! # Theorems -/

/-! ## JSON string round trip -/

theorem hexVal_hexDigitChar (n : Nat) (h : n < 16) :
    hexVal (hexDigitChar n) = some n := by
  interval_cases n <;> decide

theorem parse_step_quote (cs : List Char) : parseStrAux ('"' :: cs) = some ([], cs) := by
  rw [parseStrAux.eq_def]; simp

theorem parse_step_esc (e c2 : Char) (cs : List Char)
    (hu : ¬ e = 'u') (h : unescChar e = some c2) :
    parseStrAux ('\\' :: e :: cs) =
      match parseStrAux cs with
      | some (s, r) => some (c2 :: s, r)
      | none => none := by
  rw [parseStrAux.eq_def]; simp [hu, h]

theorem parse_step_u (d1 d2 d3 d4 : Char) (cs : List Char) :
    parseStrAux ('\\' :: 'u' :: d1 :: d2 :: d3 :: d4 :: cs) =
      match hexVal d1, hexVal d2, hexVal d3, hexVal d4 with
      | some a, some b, some c4, some d =>
        (match parseStrAux cs with
          | some (s, r) => some (Char.ofNat (((a * 16 + b) * 16 + c4) * 16 + d) :: s, r)
          | none => none)
      | _, _, _, _ => none := by
  rw [parseStrAux.eq_def]; simp

theorem parse_step_other (c : Char) (cs : List Char)
    (h1 : ¬ c = '"') (h2 : ¬ c = '\\') :
    parseStrAux (c :: cs) =
      match parseStrAux cs with
      | some (s, r) => some (c :: s, r)
      | none => none := by
  rw [parseStrAux.eq_def]; simp [h1, h2]

theorem parseStrAux_rt : ∀ (s rest : List Char),
    parseStrAux (encStr s ++ ('"' :: rest)) = some (s, rest) := by
  intro s
  induction s with
  | nil => intro rest; simp [encStr, parse_step_quote]
  | cons c s ih =>
    intro rest
    have hchunk : encStr (c :: s) = escChar c ++ encStr s := by
      simp [encStr]
    rw [hchunk, List.append_assoc]
    by_cases h1 : c = '"'
    · subst h1
      rw [show escChar '"' = ['\\', '"'] from by decide]
      rw [List.cons_append, List.cons_append, List.nil_append]
      rw [parse_step_esc '"' '"' _ (by decide) (by decide), ih]
    · by_cases h2 : c = '\\'
      · subst h2
        rw [show escChar '\\' = ['\\', '\\'] from by decide]
        rw [List.cons_append, List.cons_append, List.nil_append]
        rw [parse_step_esc '\\' '\\' _ (by decide) (by decide), ih]
      · by_cases h3 : c = '\x08'
        · subst h3
          rw [show escChar '\x08' = ['\\', 'b'] from by decide]
          rw [List.cons_append, List.cons_append, List.nil_append]
          rw [parse_step_esc 'b' '\x08' _ (by decide) (by decide), ih]
        · by_cases h4 : c = '\x09'
          · subst h4
            rw [show escChar '\x09' = ['\\', 't'] from by decide]
            rw [List.cons_append, List.cons_append, List.nil_append]
            rw [parse_step_esc 't' '\x09' _ (by decide) (by decide), ih]
          · by_cases h5 : c = '\x0a'
            · subst h5
              rw [show escChar '\x0a' = ['\\', 'n'] from by decide]
              rw [List.cons_append, List.cons_append, List.nil_append]
              rw [parse_step_esc 'n' '\x0a' _ (by decide) (by decide), ih]
            · by_cases h6 : c = '\x0c'
              · subst h6
                rw [show escChar '\x0c' = ['\\', 'f'] from by decide]
                rw [List.cons_append, List.cons_append, List.nil_append]
                rw [parse_step_esc 'f' '\x0c' _ (by decide) (by decide), ih]
              · by_cases h7 : c = '\x0d'
                · subst h7
                  rw [show escChar '\x0d' = ['\\', 'r'] from by decide]
                  rw [List.cons_append, List.cons_append, List.nil_append]
                  rw [parse_step_esc 'r' '\x0d' _ (by decide) (by decide), ih]
                · by_cases h8 : c.toNat < 32
                  · have e1 : escChar c = ['\\', 'u', '0', '0',
                        hexDigitChar (c.toNat / 16), hexDigitChar (c.toNat % 16)] := by
                      simp [escChar, h1, h2, h3, h4, h5, h6, h7, h8]
                    have hv1 : hexVal (hexDigitChar (c.toNat / 16)) = some (c.toNat / 16) :=
                      hexVal_hexDigitChar _ (by omega)
                    have hv2 : hexVal (hexDigitChar (c.toNat % 16)) = some (c.toNat % 16) :=
                      hexVal_hexDigitChar _ (by omega)
                    have harith :
                        ((0 * 16 + 0) * 16 + c.toNat / 16) * 16 + c.toNat % 16 = c.toNat := by
                      omega
                    rw [e1]
                    simp only [List.cons_append, List.nil_append]
                    rw [parse_step_u]
                    rw [show hexVal '0' = some 0 from by decide, hv1, hv2, ih]
                    simp only [harith, Char.ofNat_toNat]
                  · have e1 : escChar c = [c] := by
                      simp [escChar, h1, h2, h3, h4, h5, h6, h7, h8]
                    rw [e1]
                    simp only [List.cons_append, List.nil_append]
                    rw [parse_step_other c _ h1 h2, ih]

theorem stripPre_append : ∀ (p r : List Char), stripPre p (p ++ r) = some r
  | [], _ => rfl
  | c :: p, r => by simp [stripPre, stripPre_append p r]

theorem stringMk_data (s : String) : String.mk s.data = s := rfl

/-! ## ContainerOutput round trip -/

theorem decodeStatusTok_statusChars (st : OStatus) :
    decodeStatusTok (statusChars st) = some st := by
  cases st <;> rfl

theorem parseResultVal_null (rest : List Char) :
    parseResultVal (strData "null" ++ rest) = some (none, rest) := rfl

theorem parseResultVal_str (s : List Char) (rest : List Char) :
    parseResultVal ('"' :: (encStr s ++ ('"' :: rest))) = some (some (String.mk s), rest) := by
  simp [parseResultVal, parseStrAux_rt]

theorem parseOptStrField_some (key : List Char) (s : List Char) (rest : List Char) :
    parseOptStrField key (key ++ (encStr s ++ ('"' :: rest))) = some (some (String.mk s), rest) := by
  simp [parseOptStrField, stripPre_append, parseStrAux_rt]

theorem parseOptStrField_none (key : List Char) (cs : List Char)
    (h : stripPre key cs = none) :
    parseOptStrField key cs = some (none, cs) := by
  simp [parseOptStrField, h]

theorem stripPre_nsid_err (t : List Char) :
    stripPre (strData ",\"newSessionId\":\"") (strData ",\"error\":\"" ++ t) = none := rfl

theorem stripPre_nsid_close :
    stripPre (strData ",\"newSessionId\":\"") (strData "\x7d") = none := rfl

theorem stripPre_err_close :
    stripPre (strData ",\"error\":\"") (strData "\x7d") = none := rfl

/-- JSON encode/decode round trip for ContainerOutput. -/
theorem decodeOutput_encodeOutput (o : ContainerOutput) :
    decodeOutput (encodeOutput o) = some o := by
  rcases o with ⟨st, res, nsid, err⟩
  cases res <;> cases nsid <;> cases err <;>
    simp [encodeOutput, decodeOutput, encResult, encOptField,
      stripPre_append, parseStrAux_rt, decodeStatusTok_statusChars,
      parseResultVal_null, parseResultVal_str,
      parseOptStrField_some, parseOptStrField_none,
      stripPre_nsid_err, stripPre_nsid_close, stripPre_err_close,
      stringMk_data, List.append_assoc]

theorem encodeOutput_headChar (o : ContainerOutput) :
    ∃ t, encodeOutput o = '\x7b' :: t :=
  ⟨_, rfl⟩

theorem encodeOutput_ne_endMarker (o : ContainerOutput) :
    encodeOutput o ≠ outputEndMarker := by
  obtain ⟨t, ht⟩ := encodeOutput_headChar o
  rw [ht]
  intro h
  have := congrArg List.head? h
  simp [outputEndMarker, strData] at this

/-- C8: a ResultEnvelope written by writeOutput (start marker, one JSON line,
end marker) and re-parsed by splitting the stream on the marker literals and
JSON-decoding the enclosed line reproduces the original envelope. -/
theorem claim_C8_roundtrip (o : ContainerOutput) :
    reparseFramed (writeOutput o) = some o := by
  have hne : (encodeOutput o != outputEndMarker) = true := by
    simp [bne_iff_ne, encodeOutput_ne_endMarker o]
  simp [reparseFramed, writeOutput, List.dropWhile, List.takeWhile, hne,
    decodeOutput_encodeOutput]

/-! ## Mailbox drain -/

theorem lookupFile_of_mem : ∀ (fs : InboxDir) (n : List Char) (c : FileContent),
    (fs.map Prod.fst).Nodup → (n, c) ∈ fs → lookupFile fs n = some c := by
  intro fs
  induction fs with
  | nil => intro n c _ hm; simp at hm
  | cons f rest ih =>
    intro n c hnd hm
    rcases f with ⟨m, d⟩
    simp only [List.map_cons, List.nodup_cons] at hnd
    rcases List.mem_cons.mp hm with h | h
    · obtain ⟨rfl, rfl⟩ := Prod.mk.injEq .. ▸ h
      simp [lookupFile, List.find?_cons]
    · have hmn : ¬ m = n := by
        intro he
        subst he
        exact hnd.1 (List.mem_map_of_mem Prod.fst h)
      have hb : (((m, d) : List Char × FileContent).1 == n) = false := by
        simp [hmn]
      simp only [lookupFile, List.find?_cons, hb]
      exact ih n c hnd.2 h

theorem lookupFile_cons (k : List Char) (d : FileContent) (rest : InboxDir) (m : List Char) :
    lookupFile ((k, d) :: rest) m =
      if (k == m) = true then some d else lookupFile rest m := by
  simp only [lookupFile, List.find?_cons]
  cases hkm : (k == m) <;> simp [hkm]

theorem eraseFile_cons (k : List Char) (d : FileContent) (rest : InboxDir) (n : List Char) :
    eraseFile ((k, d) :: rest) n =
      if ¬ k = n then (k, d) :: eraseFile rest n else eraseFile rest n := by
  simp only [eraseFile, List.filter_cons]
  by_cases hk : k = n <;> simp [hk]

theorem lookupFile_erase_ne : ∀ (fs : InboxDir) (n m : List Char), ¬ m = n →
    lookupFile (eraseFile fs n) m = lookupFile fs m := by
  intro fs n m hmn
  induction fs with
  | nil => rfl
  | cons f rest ih =>
    rcases f with ⟨k, d⟩
    by_cases hk : k = n
    · subst hk
      rw [eraseFile_cons, if_neg (by simp), lookupFile_cons,
        if_neg (by simp; exact fun he => hmn he.symm)]
      exact ih
    · rw [eraseFile_cons, if_pos hk, lookupFile_cons, lookupFile_cons]
      by_cases hkm : (k == m) = true
      · rw [if_pos hkm, if_pos hkm]
      · rw [if_neg hkm, if_neg hkm]
        exact ih

theorem nodup_names_erase (fs : InboxDir) (n : List Char)
    (hnd : (fs.map Prod.fst).Nodup) : ((eraseFile fs n).map Prod.fst).Nodup :=
  List.Nodup.sublist (List.Sublist.map Prod.fst (List.filter_sublist fs)) hnd

theorem drainGo_spec : ∀ (ns : List (List Char)) (fs : InboxDir),
    ns.Nodup →
    (fs.map Prod.fst).Nodup →
    (∀ n ∈ ns, ∃ c, (n, c) ∈ fs) →
    (∀ f ∈ fs, isNonEmptyMsg f.2 = true) →
    drainGo ns fs = (ns.map (textOfName fs), fs.filter (fun f => decide (f.1 ∉ ns))) := by
  intro ns
  induction ns with
  | nil =>
    intro fs _ _ _ _
    simp [drainGo, List.filter_eq_self]
  | cons n ns ih =>
    intro fs hnd hndf hex hmsg
    simp only [List.nodup_cons] at hnd
    obtain ⟨c, hc⟩ := hex n (List.mem_cons_self n ns)
    obtain ⟨t, rfl⟩ : ∃ t, c = FileContent.message t := by
      have := hmsg (n, c) hc
      cases c with
      | message t => exact ⟨t, rfl⟩
      | other => simp [isNonEmptyMsg] at this
      | malformed => simp [isNonEmptyMsg] at this
    have hlook : lookupFile fs n = some (.message t) := lookupFile_of_mem fs n _ hndf hc
    have ht : (t != "") = true := hmsg (n, .message t) hc
    have hrec := ih (eraseFile fs n) hnd.2 (nodup_names_erase fs n hndf)
      (by
        intro m hm
        obtain ⟨cm, hcm⟩ := hex m (List.mem_cons_of_mem n hm)
        refine ⟨cm, List.mem_filter.mpr ⟨hcm, ?_⟩⟩
        simp
        intro he
        subst he
        exact hnd.1 hm)
      (by
        intro f hf
        exact hmsg f (List.mem_filter.mp hf).1)
    have hmapeq : (ns.map (textOfName (eraseFile fs n))) = ns.map (textOfName fs) := by
      refine List.map_congr_left ?_
      intro m hm
      have hmn : ¬ m = n := by
        intro he; subst he; exact hnd.1 hm
      simp [textOfName, lookupFile_erase_ne fs n m hmn]
    have hfiltereq :
        (eraseFile fs n).filter (fun f => decide (f.1 ∉ ns)) =
          fs.filter (fun f => decide (f.1 ∉ n :: ns)) := by
      rw [eraseFile, List.filter_filter]
      refine List.filter_congr ?_
      intro f _
      simp [List.mem_cons, not_or, Bool.and_comm]
    simp only [drainGo, hlook, ht, hrec, hmapeq, hfiltereq, if_true]
    simp [textOfName, hlook]

/-- C4 fails as stated: a file `{type:"message", text:""}` is a well-formed
message file, but the `data.text` truthiness check drops its payload, so
`drain()` on a directory holding exactly that file returns no texts (the file
is still deleted) instead of the one payload `""`. -/
theorem claim_C4_counterexample :
    drainIpcInput [(strData "a.json", FileContent.message "")] = ([], [])
    ∧ ([] : List String) ≠ [""] := by
  constructor
  · decide
  · decide

/-- C4 (amended: message texts must be non-empty, since the `data.text`
truthiness check drops empty payloads): for an inbox of well-formed message
files with distinct `.json` names and non-empty texts, one `drain()` returns
exactly the payloads in lexicographically sorted filename order and leaves the
directory empty. -/
theorem claim_C4_drain (fs : InboxDir)
    (hnd : (fs.map Prod.fst).Nodup)
    (hjson : ∀ f ∈ fs, isJsonName f.1 = true)
    (hmsg : ∀ f ∈ fs, isNonEmptyMsg f.2 = true) :
    (drainIpcInput fs).1 = (sortedJsonNames fs).map (textOfName fs)
    ∧ (drainIpcInput fs).2 = []
    ∧ (sortedJsonNames fs).Perm (fs.map Prod.fst)
    ∧ (sortedJsonNames fs).Sorted (· ≤ ·) := by
  have hfilter : (fs.map Prod.fst).filter isJsonName = fs.map Prod.fst := by
    rw [List.filter_eq_self]
    intro n hn
    obtain ⟨f, hf, rfl⟩ := List.mem_map.mp hn
    exact hjson f hf
  have hperm : (sortedJsonNames fs).Perm (fs.map Prod.fst) := by
    rw [sortedJsonNames, hfilter]
    exact List.perm_insertionSort _ _
  have hsorted : (sortedJsonNames fs).Sorted (· ≤ ·) :=
    List.sorted_insertionSort _ _
  have hndns : (sortedJsonNames fs).Nodup := hperm.nodup_iff.mpr hnd
  have hmem : ∀ n ∈ sortedJsonNames fs, ∃ c, (n, c) ∈ fs := by
    intro n hn
    have : n ∈ fs.map Prod.fst := hperm.mem_iff.mp hn
    obtain ⟨f, hf, rfl⟩ := List.mem_map.mp this
    exact ⟨f.2, hf⟩
  have hspec := drainGo_spec (sortedJsonNames fs) fs hndns hnd hmem hmsg
  refine ⟨?_, ?_, hperm, hsorted⟩
  · rw [drainIpcInput, hspec]
  · rw [drainIpcInput, hspec]
    simp only
    rw [List.filter_eq_nil_iff]
    intro f hf
    simp
    exact hperm.mem_iff.mpr (List.mem_map_of_mem Prod.fst hf)

theorem claim_C4_drain_witness :
    ((drainC4wFs.map Prod.fst).Nodup
      ∧ (∀ f ∈ drainC4wFs, isJsonName f.1 = true)
      ∧ (∀ f ∈ drainC4wFs, isNonEmptyMsg f.2 = true))
    ∧ ((drainIpcInput drainC4wFs).1 = (sortedJsonNames drainC4wFs).map (textOfName drainC4wFs)
      ∧ (drainIpcInput drainC4wFs).2 = []
      ∧ (sortedJsonNames drainC4wFs).Perm (drainC4wFs.map Prod.fst)
      ∧ (sortedJsonNames drainC4wFs).Sorted (· ≤ ·)) :=
  ⟨⟨by decide, by decide, by decide⟩,
    claim_C4_drain drainC4wFs (by decide) (by decide) (by decide)⟩

/-! ## Sentinel handling and the turn loop -/

/-- C6: if the close sentinel exists when the wait is entered, the very first
poll returns the close signal (`null`), the sentinel no longer exists
afterwards, and a turn whose post-turn wait yields the close signal is the
last one — the remaining script is never reached. -/
theorem claim_C6_sentinel :
    (∀ (st : IpcState) (fuel : Nat), st.sentinel = true → 0 < fuel →
      (waitForIpcMessage fuel st).1 = some none ∧
      ((waitForIpcMessage fuel st).2).sentinel = false)
    ∧ (∀ (sid : String) (t : TurnScript) (rest : List TurnScript)
        (prompt : String) (record : List ParsedMessage) (outputs : List ContainerOutput),
        t.nextMessage = none →
        runLoop sid (t :: rest) prompt record outputs =
          runLoop sid [t] prompt record outputs) := by
  constructor
  · intro st fuel hs hf
    cases fuel with
    | zero => omega
    | succ n => simp [waitForIpcMessage, shouldClose, hs]
  · intro sid t rest prompt record outputs hn
    cases hc : t.closeDuringQuery <;> simp [runLoop, hn, hc]

theorem claim_C6_sentinel_witness :
    ((waitForIpcMessage 1 ⟨true, []⟩).1 = some none ∧
      ((waitForIpcMessage 1 ⟨true, []⟩).2).sentinel = false) :=
  claim_C6_sentinel.1 ⟨true, []⟩ 1 rfl (by decide)

/-- C5: when the foreground engine call of a turn throws or returns an
engine-level error, that turn emits exactly one error envelope — with null
result, the current session id and the failure description — and the loop
then proceeds: it emits the heartbeat and consumes the next mailbox message,
continuing with the rest of the script instead of exiting. -/
theorem claim_C5_engine_failure :
    ∀ (sid m prompt : String) (rest : List TurnScript) (record : List ParsedMessage)
      (outputs : List ContainerOutput) (msg : String) (e : Json),
      (runLoop sid (⟨.threw msg, false, some m⟩ :: rest) prompt record outputs =
        runLoop sid rest m (record ++ [⟨.user, prompt⟩])
          (outputs ++ [⟨.error, none, some sid, some msg⟩, heartbeatEnvelope sid]))
      ∧ (runLoop sid (⟨.replyError e, false, some m⟩ :: rest) prompt record outputs =
        runLoop sid rest m (record ++ [⟨.user, prompt⟩])
          (outputs ++ [⟨.error, none, some sid, some (String.mk (Json.serialize e))⟩,
            heartbeatEnvelope sid])) := by
  intro sid m prompt rest record outputs msg e
  constructor <;> simp [runLoop, runQueryOutputs]

/-! ## Reply extraction -/

theorem flatten_filter_ne_empty (l : List String) :
    ((l.filter (fun t => t != "")).map String.data).flatten = (l.map String.data).flatten := by
  induction l with
  | nil => rfl
  | cons x xs ih =>
    by_cases hx : x = ""
    · subst hx
      simpa [List.filter_cons] using ih
    · have hb : (x != "") = true := by simp [hx]
      simp [List.filter_cons, hb, ih]

theorem joinAll_filter_ne_empty (l : List String) :
    joinAll (l.filter (fun t => t != "")) = joinAll l :=
  congrArg String.mk (flatten_filter_ne_empty l)

/-- C9 fails as stated on two inputs: (a) a response whose only text-typed
fragment has empty text — the claim demands the concatenation `""`, but the
truthiness filter discards the fragment and the code serializes the fallback
field instead; (b) a response with a present but falsy `structured_output`
(here `false`) and no text fragments — the claim demands its serialization
`"false"`, but the truthiness test makes the code return null. -/
theorem claim_C9_counterexample :
    (extractResultText c9cexResult = some "true"
      ∧ joinAll (textFragments [⟨"text", some ""⟩]) = ""
      ∧ some "true" ≠ some "")
    ∧ (extractResultText c9cexResult2 = none
      ∧ Json.serialize (Json.bool false) = strData "false"
      ∧ (none : Option String) ≠ some "false") := by
  refine ⟨⟨?_, by decide, by decide⟩, ⟨?_, ?_, by decide⟩⟩
  · simp [extractResultText, c9cexResult, textFragments, fallbackText, Json.truthy,
      Json.serialize]
    rfl
  · simp [extractResultText, c9cexResult2, textFragments, fallbackText, Json.truthy]
  · rfl

/-- C9 (amended for the two truthiness checks): when at least one text-typed
fragment is non-empty, the extracted reply is the in-order concatenation of
all text-typed fragments (empty ones contribute nothing to it); when all text
fragments are empty or there are none, the fallback structured field is
serialized if present and truthy; otherwise the result is null
(`fallbackText` covers both: serialization for a present truthy field, null
otherwise). -/
theorem claim_C9_extraction :
    ∀ (r : EngineResult) (ps : List EnginePart),
      (r.parts = some ps → (∃ t ∈ textFragments ps, t ≠ "") →
        extractResultText r = some (joinAll (textFragments ps)))
      ∧ (r.parts = some ps → (∀ t ∈ textFragments ps, t = "") →
        extractResultText r = fallbackText r)
      ∧ (r.parts = none → extractResultText r = fallbackText r) := by
  intro r ps
  refine ⟨?_, ?_, ?_⟩
  · intro hp hne
    obtain ⟨t, ht, htne⟩ := hne
    have hmem : t ∈ (textFragments ps).filter (fun t => t != "") := by
      rw [List.mem_filter]
      exact ⟨ht, by simp [htne]⟩
    have hlen : 0 < ((textFragments ps).filter (fun t => t != "")).length :=
      List.length_pos_of_mem hmem
    simp only [extractResultText, hp]
    rw [if_pos hlen, joinAll_filter_ne_empty]
  · intro hp hall
    have hnil : (textFragments ps).filter (fun t => t != "") = [] := by
      rw [List.filter_eq_nil_iff]
      intro t ht
      simp [hall t ht]
    simp [extractResultText, hp, hnil]
  · intro hp
    simp [extractResultText, hp]

theorem claim_C9_extraction_witness :
    (replyHi.parts = some [⟨"text", some "hi"⟩]
      ∧ (∃ t ∈ textFragments [⟨"text", some "hi"⟩], t ≠ ""))
    ∧ extractResultText replyHi = some (joinAll (textFragments [⟨"text", some "hi"⟩])) :=
  ⟨⟨rfl, ⟨"hi", by simp [textFragments], by decide⟩⟩,
    (claim_C9_extraction replyHi [⟨"text", some "hi"⟩]).1 rfl
      ⟨"hi", by simp [textFragments], by decide⟩⟩

/-! ## The main program -/

theorem runLoop_all_user : ∀ (ts : List TurnScript) (sid prompt : String)
    (record : List ParsedMessage) (outputs : List ContainerOutput),
    (record.all fun m => m.role == ParsedRole.user) = true →
    (((runLoop sid ts prompt record outputs).1).all fun m => m.role == ParsedRole.user) = true := by
  intro ts
  induction ts with
  | nil =>
    intro sid prompt record outputs h
    simpa [runLoop] using h
  | cons t rest ih =>
    intro sid prompt record outputs h
    have h2 : ((record ++ [ParsedMessage.mk .user prompt]).all
        fun m => m.role == ParsedRole.user) = true := by
      simp [List.all_append, h]
    cases hc : t.closeDuringQuery
    · simp only [runLoop, hc, Bool.false_eq_true, if_false]
      cases hn : t.nextMessage with
      | none => simpa [hn] using h2
      | some m =>
        simp only [hn]
        exact ih sid m (record ++ [ParsedMessage.mk .user prompt])
          (outputs ++ runQueryOutputs sid t.outcome ++ [heartbeatEnvelope sid]) h2
    · simpa [runLoop, hc] using h2

theorem runLoop_finished_record_ne_nil : ∀ (ts : List TurnScript) (sid prompt : String)
    (record : List ParsedMessage) (outputs : List ContainerOutput),
    (runLoop sid ts prompt record outputs).2.2 = true →
    (runLoop sid ts prompt record outputs).1 ≠ [] := by
  intro ts
  induction ts with
  | nil => intro sid prompt record outputs h; simp [runLoop] at h
  | cons t rest ih =>
    intro sid prompt record outputs h
    cases hc : t.closeDuringQuery
    · simp only [runLoop, hc, Bool.false_eq_true, if_false] at h ⊢
      cases hn : t.nextMessage with
      | none => simp [hn]
      | some m =>
        simp only [hn] at h ⊢
        exact ih sid m (record ++ [ParsedMessage.mk .user prompt])
          (outputs ++ runQueryOutputs sid t.outcome ++ [heartbeatEnvelope sid]) h
    · simp [runLoop, hc]

theorem runLoop_record_extension : ∀ (ts : List TurnScript) (sid prompt : String)
    (record : List ParsedMessage) (outputs : List ContainerOutput),
    ∃ ext, (runLoop sid ts prompt record outputs).1 = record ++ ext := by
  intro ts
  induction ts with
  | nil =>
    intro sid prompt record outputs
    exact ⟨[], by simp [runLoop]⟩
  | cons t rest ih =>
    intro sid prompt record outputs
    cases hc : t.closeDuringQuery
    · cases hn : t.nextMessage with
      | none =>
        refine ⟨[ParsedMessage.mk .user prompt], ?_⟩
        simp [runLoop, hc, hn]
      | some m =>
        obtain ⟨ext, hext⟩ := ih sid m (record ++ [ParsedMessage.mk .user prompt])
          (outputs ++ runQueryOutputs sid t.outcome ++ [heartbeatEnvelope sid])
        refine ⟨[ParsedMessage.mk .user prompt] ++ ext, ?_⟩
        simp only [runLoop, hc, Bool.false_eq_true, if_false, hn]
        rw [hext]
        simp
    · refine ⟨[ParsedMessage.mk .user prompt], ?_⟩
      simp [runLoop, hc]

theorem runLoop_cons_head (sid : String) (t : TurnScript) (rest : List TurnScript)
    (prompt : String) (outputs : List ContainerOutput) :
    ((runLoop sid (t :: rest) prompt [] outputs).1).head? = some ⟨.user, prompt⟩ := by
  cases hc : t.closeDuringQuery
  · cases hn : t.nextMessage with
    | none => simp [runLoop, hc, hn]
    | some m =>
      obtain ⟨ext, hext⟩ := runLoop_record_extension rest sid m
        ([] ++ [ParsedMessage.mk .user prompt])
        (outputs ++ runQueryOutputs sid t.outcome ++ [heartbeatEnvelope sid])
      simp only [runLoop, hc, Bool.false_eq_true, if_false, hn]
      rw [hext]
      simp
  · simp [runLoop, hc]

theorem loopOutcome_facts (env : Env) (input : ContainerInputM) (ipc1 : IpcState)
    (sid : String) :
    ((loopOutcome env input ipc1 sid).exitCode = some 0 ↔
      (loopOutcome env input ipc1 sid).teardown = true)
    ∧ (loopOutcome env input ipc1 sid).exitCode ≠ some 1
    ∧ ((loopOutcome env input ipc1 sid).exitCode = none ∨
       (loopOutcome env input ipc1 sid).exitCode = some 0)
    ∧ (loopOutcome env input ipc1 sid).record =
        (runLoop sid env.turns (initialPrompt input ipc1.files) [] []).1
    ∧ ((loopOutcome env input ipc1 sid).teardown = true →
        (loopOutcome env input ipc1 sid).archive.length = 1)
    ∧ (loopOutcome env input ipc1 sid).sentinelAfterStartup = some ipc1.sentinel := by
  rcases hr : runLoop sid env.turns (initialPrompt input ipc1.files) [] [] with ⟨rec, out, fin⟩
  cases fin
  · simp [loopOutcome, hr]
  · have hne : rec ≠ [] := by
      have h1 := runLoop_finished_record_ne_nil env.turns sid
        (initialPrompt input ipc1.files) [] [] (by rw [hr])
      rw [hr] at h1
      exact h1
    have hemp : rec.isEmpty = false := by
      cases rec with
      | nil => exact absurd rfl hne
      | cons a l => rfl
    simp [loopOutcome, hr, archiveConversation, hemp]

theorem mainRun_cases (env : Env) :
    ((env.stdin = none ∨ setupCrashes env = true)
      ∧ (mainRun env).record = [] ∧ (mainRun env).teardown = false
      ∧ (mainRun env).exitCode = some 1 ∧ (mainRun env).archive = [])
    ∨ (∃ input sid, env.stdin = some input ∧ setupCrashes env = false ∧
        mainRun env = loopOutcome env input ⟨false, env.startupFiles⟩ sid) := by
  rcases henv : env.stdin with _ | input
  · left
    simp [mainRun, henv]
  · cases hs : env.serverStartOk
    · left
      refine ⟨Or.inr ?_, ?_⟩
      · simp [setupCrashes, henv, hs]
      · simp [mainRun, henv, hs, crashResult]
    · cases hsid : input.sessionId with
      | none =>
        cases hcr : env.createOk
        · left
          refine ⟨Or.inr ?_, ?_⟩
          · simp [setupCrashes, henv, hsid, hcr]
          · simp [mainRun, henv, hs, hsid, hcr, crashResult]
        · cases hctx : env.hasGlobalContext && !env.contextInjectOk
          · right
            refine ⟨input, env.newSessionId, rfl, ?_, ?_⟩
            · simp [setupCrashes, henv, hsid, hcr, hs]
              intro hg
              simp [hg] at hctx
              exact hctx
            · simp [mainRun, henv, hs, hsid, hcr, mainRunWithSession, hctx,
                startupIpcCleanup]
          · left
            refine ⟨Or.inr ?_, ?_⟩
            · simp [setupCrashes, henv, hctx]
            · simp [mainRun, henv, hs, hsid, hcr, mainRunWithSession, hctx, crashResult]
      | some sid =>
        cases hr : env.resumeOk
        · cases hcr : env.createOk
          · left
            refine ⟨Or.inr ?_, ?_⟩
            · simp [setupCrashes, henv, hr, hcr]
            · simp [mainRun, henv, hs, hsid, hr, hcr, crashResult]
          · cases hctx : env.hasGlobalContext && !env.contextInjectOk
            · right
              refine ⟨input, env.newSessionId, rfl, ?_, ?_⟩
              · simp [setupCrashes, henv, hr, hcr, hs]
                intro hg
                simp [hg] at hctx
                exact hctx
              · simp [mainRun, henv, hs, hsid, hr, hcr, mainRunWithSession, hctx,
                  startupIpcCleanup]
            · left
              refine ⟨Or.inr ?_, ?_⟩
              · simp [setupCrashes, henv, hctx]
              · simp [mainRun, henv, hs, hsid, hr, hcr, mainRunWithSession, hctx, crashResult]
        · cases hctx : env.hasGlobalContext && !env.contextInjectOk
          · right
            refine ⟨input, sid, rfl, ?_, ?_⟩
            · simp [setupCrashes, henv, hsid, hr, hs]
              intro hg
              simp [hg] at hctx
              exact hctx
            · simp [mainRun, henv, hs, hsid, hr, mainRunWithSession, hctx,
                startupIpcCleanup]
          · left
            refine ⟨Or.inr ?_, ?_⟩
            · simp [setupCrashes, henv, hctx]
            · simp [mainRun, henv, hs, hsid, hr, mainRunWithSession, hctx, crashResult]

/-- C1 is a code bug: the runner never appends assistant turns — in every run
the ConversationRecord handed to the archiver consists of user turns only,
even though `envC1` is a run with a successful turn (its outputs contain the
success envelope with extracted text "hi") and its final record is just the
user prompt. -/
theorem claim_C1_no_assistant_turns :
    (∀ env : Env, ((mainRun env).record.all fun m => m.role == ParsedRole.user) = true)
    ∧ (mainRun envC1).record = [⟨ParsedRole.user, "hello"⟩]
    ∧ (mainRun envC1).outputs =
        [⟨OStatus.success, some "hi", some "s1", none⟩, heartbeatEnvelope "s1"] := by
  refine ⟨?_, by decide, by decide⟩
  intro env
  rcases mainRun_cases env with ⟨_, hrec, _⟩ | ⟨input, sid, _, _, heq⟩
  · simp [hrec]
  · rw [heq, (loopOutcome_facts env input ⟨false, env.startupFiles⟩ sid).2.2.2.1]
    exact runLoop_all_user env.turns sid _ [] [] rfl

/-- C2 fails as stated for documents that parse but lack required fields: the
run whose stdin was `{}` (no prompt, no groupFolder) starts a session, reaches
teardown and exits 0 — `JSON.parse` is the only gate, there is no field
validation. -/
theorem claim_C2_counterexample :
    envC2.stdin = some emptyInput
    ∧ (mainRun envC2).sessionStarted = true
    ∧ (mainRun envC2).exitCode = some 0
    ∧ (mainRun envC2).teardown = true := by
  refine ⟨rfl, by decide, by decide, by decide⟩

/-- C2 (amended: only a stdin document that fails to parse as JSON is
rejected; missing fields are not validated): on a parse failure the process
emits exactly one error ResultEnvelope carrying no sessionId and terminates
with exit status 1 without starting a session. -/
theorem claim_C2_parse_failure : ∀ env : Env, env.stdin = none →
    (mainRun env).outputs =
      [⟨OStatus.error, none, none, some ("Failed to parse input: " ++ env.parseErrMsg)⟩]
    ∧ (mainRun env).exitCode = some 1
    ∧ (mainRun env).sessionStarted = false
    ∧ (mainRun env).teardown = false := by
  intro env h
  simp [mainRun, h]

theorem claim_C2_parse_failure_witness :
    envPF.stdin = none
    ∧ ((mainRun envPF).outputs =
        [⟨OStatus.error, none, none, some ("Failed to parse input: " ++ envPF.parseErrMsg)⟩]
      ∧ (mainRun envPF).exitCode = some 1
      ∧ (mainRun envPF).sessionStarted = false
      ∧ (mainRun envPF).teardown = false) :=
  ⟨rfl, claim_C2_parse_failure envPF rfl⟩

/-- C3 fails as stated: in `envC3` the stdin document parsed, yet session
creation failed and the process dies with a non-zero status from an unhandled
rejection, without reaching teardown — so a non-zero exit does not imply the
input could not be parsed. -/
theorem claim_C3_counterexample :
    envC3.stdin ≠ none
    ∧ (mainRun envC3).exitCode = some 1
    ∧ (mainRun envC3).teardown = false := by
  refine ⟨by decide, by decide, by decide⟩

/-- C3 (amended: a pre-loop engine/server failure — session creation included
— also exits non-zero, crashing without an envelope or teardown): the exit
status is 0 exactly on the paths that reach teardown, and 1 exactly when the
input failed to parse or the setup crashed; no other exit codes occur (`none`
is a run still blocked waiting). -/
theorem claim_C3_exit_codes : ∀ env : Env,
    ((mainRun env).exitCode = some 0 ↔ (mainRun env).teardown = true)
    ∧ ((mainRun env).exitCode = some 1 ↔ (env.stdin = none ∨ setupCrashes env = true))
    ∧ ((mainRun env).exitCode = none ∨ (mainRun env).exitCode = some 0 ∨
       (mainRun env).exitCode = some 1) := by
  intro env
  rcases mainRun_cases env with ⟨hcond, _, htd, hexit, _⟩ | ⟨input, sid, hin, hcrash, heq⟩
  · refine ⟨?_, ?_, Or.inr (Or.inr hexit)⟩
    · rw [hexit, htd]
      simp
    · rw [hexit]
      simp [hcond]
  · obtain ⟨hiff, hne1, hcases, _, _, _⟩ := loopOutcome_facts env input ⟨false, env.startupFiles⟩ sid
    rw [heq]
    refine ⟨hiff, ?_, ?_⟩
    · constructor
      · intro h
        exact absurd h hne1
      · intro h
        rcases h with h | h
        · rw [hin] at h
          exact absurd h (by simp)
        · rw [h] at hcrash
          exact absurd hcrash (by simp)
    · rcases hcases with h | h
      · exact Or.inl h
      · exact Or.inr (Or.inl h)

theorem claim_C3_exit_codes_witness :
    (mainRun envC3).exitCode = some 1 :=
  ((claim_C3_exit_codes envC3).2.1).mpr (Or.inr (by decide))

/-- C7 fails as stated: the run `envC7` is closed during its very first query
(zero completed turns), yet the archiver still writes one file — the user
prompt was appended to the record before the close was observed, so the
record is `[user "hello"]`, not empty. -/
theorem claim_C7_counterexample :
    (mainRun envC7).archive.length = 1
    ∧ (mainRun envC7).record = [⟨ParsedRole.user, "hello"⟩]
    ∧ (1 : Nat) ≠ 0 := by
  refine ⟨by decide, by decide, by decide⟩

/-- C7 (amended: archiving an empty ConversationRecord is indeed a filesystem
no-op, but a run closed before any turn completes still performs exactly one
archive write, because the user prompt was already appended): every run that
reaches teardown archives exactly one file. -/
theorem claim_C7_empty_archive :
    (∀ (an s : Option String) (clock : Clock) (archive : List (String × String)),
      archiveConversation [] an s clock archive = archive)
    ∧ (∀ env : Env, (mainRun env).teardown = true → (mainRun env).archive.length = 1) := by
  constructor
  · intro an s clock archive
    simp [archiveConversation]
  · intro env h
    rcases mainRun_cases env with ⟨_, _, htd, _, _⟩ | ⟨input, sid, _, _, heq⟩
    · rw [htd] at h
      exact absurd h (by simp)
    · rw [heq] at h ⊢
      exact (loopOutcome_facts env input ⟨false, env.startupFiles⟩ sid).2.2.2.2.1 h

theorem claim_C7_empty_archive_witness :
    archiveConversation [] none none clock0 [] = []
    ∧ ((mainRun envC1).teardown = true ∧ (mainRun envC1).archive.length = 1) :=
  ⟨claim_C7_empty_archive.1 none none clock0 [],
    ⟨by decide, claim_C7_empty_archive.2 envC1 (by decide)⟩⟩

/-- C10: the behaviour of a run is identical whether or not a stale close
sentinel was on disk at startup (it is unconditionally deleted, never treated
as a close request); after a parsed startup the sentinel no longer exists; and
when setup succeeds, the first turn is still submitted — the record starts
with the initial user prompt. -/
theorem claim_C10_stale_sentinel : ∀ env : Env,
    (mainRun { env with staleSentinel := true } =
      mainRun { env with staleSentinel := false })
    ∧ (∀ input, env.stdin = some input →
        (mainRun env).sentinelAfterStartup = some false)
    ∧ (∀ input t rest, env.stdin = some input → setupCrashes env = false →
        env.turns = t :: rest →
        ((mainRun env).record).head? =
          some ⟨ParsedRole.user, initialPrompt input env.startupFiles⟩) := by
  intro env
  refine ⟨rfl, ?_, ?_⟩
  · intro input hin
    rcases mainRun_cases env with ⟨hcond, _⟩ | ⟨input2, sid, hin2, _, heq⟩
    · rcases hcond with h | h
      · rw [hin] at h
        exact absurd h (by simp)
      · -- crash paths: sentinelAfterStartup is some false by each crash branch
        rcases henv : env.stdin with _ | input3
        · rw [henv] at hin
          exact absurd hin (by simp)
        · cases hs : env.serverStartOk
          · simp [mainRun, henv, hs, crashResult]
          · cases hsid : input3.sessionId with
            | none =>
              cases hcr : env.createOk
              · simp [mainRun, henv, hs, hsid, hcr, crashResult]
              · cases hctx : env.hasGlobalContext && !env.contextInjectOk
                · simp [mainRun, henv, hs, hsid, hcr, mainRunWithSession, hctx,
                    startupIpcCleanup,
                    (loopOutcome_facts env input3 ⟨false, env.startupFiles⟩
                      env.newSessionId).2.2.2.2.2]
                · simp [mainRun, henv, hs, hsid, hcr, mainRunWithSession, hctx, crashResult]
            | some sid2 =>
              cases hr : env.resumeOk
              · cases hcr : env.createOk
                · simp [mainRun, henv, hs, hsid, hr, hcr, crashResult]
                · cases hctx : env.hasGlobalContext && !env.contextInjectOk
                  · simp [mainRun, henv, hs, hsid, hr, hcr, mainRunWithSession, hctx,
                      startupIpcCleanup,
                      (loopOutcome_facts env input3 ⟨false, env.startupFiles⟩
                        env.newSessionId).2.2.2.2.2]
                  · simp [mainRun, henv, hs, hsid, hr, hcr, mainRunWithSession, hctx,
                      crashResult]
              · cases hctx : env.hasGlobalContext && !env.contextInjectOk
                · simp [mainRun, henv, hs, hsid, hr, mainRunWithSession, hctx,
                    startupIpcCleanup,
                    (loopOutcome_facts env input3 ⟨false, env.startupFiles⟩
                      sid2).2.2.2.2.2]
                · simp [mainRun, henv, hs, hsid, hr, mainRunWithSession, hctx, crashResult]
    · rw [heq]
      exact (loopOutcome_facts env input2 ⟨false, env.startupFiles⟩ sid).2.2.2.2.2
  · intro input t rest hin hcrash hturns
    rcases mainRun_cases env with ⟨hcond, _⟩ | ⟨input2, sid, hin2, _, heq⟩
    · rcases hcond with h | h
      · rw [hin] at h
        exact absurd h (by simp)
      · rw [h] at hcrash
        exact absurd hcrash (by simp)
    · rw [heq, (loopOutcome_facts env input2 ⟨false, env.startupFiles⟩ sid).2.2.2.1]
      have hi : input2 = input := by
        rw [hin] at hin2
        exact (Option.some.injEq .. ▸ hin2).symm
      subst hi
      rw [hturns]
      exact runLoop_cons_head sid t rest _ []

theorem claim_C10_stale_sentinel_witness :
    (mainRun envC10).sentinelAfterStartup = some false
    ∧ ((mainRun envC10).record).head? =
        some ⟨ParsedRole.user, initialPrompt inputHello envC10.startupFiles⟩ :=
  ⟨(claim_C10_stale_sentinel envC10).2.1 inputHello rfl,
    (claim_C10_stale_sentinel envC10).2.2 inputHello turnHi [] rfl (by decide) rfl⟩

end NanoClaw
